import Mathlib

/-!
Shallow embedding of the combination search and scoring engine of
`dining_optimizer.py` (class `DiningHallOptimizer`): food categorization
(`categorize_food`), meal scoring (`calculate_meal_score`) and the
combination search (`find_combinations`), together with theorems checking
the specification's claims about them.

Numeric nutrition fields are modelled as rationals; Python dictionaries for
menu items become the `Item` structure (the `category` and
`protein_efficiency` keys, which the Python code attaches in place during a
search, are fields that annotation overwrites).
-/

namespace DiningOptimizer

/-- Menu item record as produced by `fetch_menu`, with the two
annotation fields that `find_combinations` attaches in place. -/
structure Item where
  name : String
  calories : ℚ
  protein : ℚ
  fat : ℚ
  carbs : ℚ
  sodium : ℚ
  serving : String
  dining_hall : String
  category : String
  protein_efficiency : ℚ
deriving DecidableEq, Inhabited

/-- Lowercasing of a name, modelling Python str.lower on the ASCII
keyword alphabet used here. -/
def lowerStr (s : String) : String :=
  String.mk (s.data.map Char.toLower)

/-- Check that the needle occurs at the head of the haystack. -/
def charsMatchAt : List Char → List Char → Bool
  | _, [] => true
  | [], _ :: _ => false
  | c :: cs, k :: ks => c == k && charsMatchAt cs ks

/-- Substring containment on character lists, modelling Python's
keyword-in-name test. -/
def charsContain : List Char → List Char → Bool
  | [], ks => ks.isEmpty
  | c :: cs, ks => charsMatchAt (c :: cs) ks || charsContain cs ks

/-- Substring containment on strings. -/
def strContains (hay needle : String) : Bool :=
  charsContain hay.data needle.data

/-- Keyword list membership test used by `categorize_food`. -/
def hasKeyword (name : String) (kws : List String) : Bool :=
  kws.any (fun k => strContains name k)

/-- Protein keyword table of `categorize_food`. -/
def protein_keywords : List String :=
  ["chicken", "beef", "pork", "fish", "salmon", "tuna", "turkey", "duck",
   "tofu", "tempeh", "seitan", "egg", "shrimp", "steak", "patty", "sausage",
   "bacon", "ham", "lamb", "tilapia", "cod", "halibut", "edamame", "beans"]

/-- Carb keyword table of `categorize_food`. -/
def carb_keywords : List String :=
  ["rice", "pasta", "bread", "potato", "fries", "noodle", "quinoa", "couscous",
   "tortilla", "bun", "roll", "bagel", "cereal", "oat", "waffle", "pancake",
   "muffin", "biscuit", "mac", "macaroni", "spaghetti", "penne", "linguine"]

/-- Vegetable keyword table of `categorize_food`. -/
def vegetable_keywords : List String :=
  ["broccoli", "salad", "lettuce", "spinach", "kale", "carrot", "broccolini",
   "tomato", "cucumber", "pepper", "green beans", "corn", "peas", "mushroom",
   "vegetable", "greens", "cabbage", "cauliflower", "asparagus", "zucchini",
   "squash", "brussels", "bok choy", "celery", "onion", "eggplant"]

/-- Fruit keyword table of `categorize_food`. -/
def fruit_keywords : List String :=
  ["apple", "banana", "orange", "berry", "strawberry", "blueberry", "melon",
   "grape", "pineapple", "mango", "peach", "pear", "fruit", "watermelon"]

/-- Embedding of `DiningHallOptimizer.categorize_food`: keyword tables are
scanned on the lowercased name in the order protein, vegetable, fruit, carb;
on no match, nutrition-based fallbacks apply. -/
def categorize_food (item : Item) : String :=
  let name := lowerStr item.name
  if hasKeyword name protein_keywords then "protein"
  else if hasKeyword name vegetable_keywords then "vegetable"
  else if hasKeyword name fruit_keywords then "fruit"
  else if hasKeyword name carb_keywords then "carb"
  else if 15 ≤ item.protein then "protein"
  else if 25 ≤ item.carbs ∧ item.protein < 8 then "carb"
  else if item.calories < 50 ∧ item.carbs < 15 then "vegetable"
  else "other"

/-- Normalized macro percentages stored under the macros key of the
score-reasons record. -/
structure MacroPcts where
  protein_pct : ℚ
  carb_pct : ℚ
  fat_pct : ℚ
deriving DecidableEq

/-- Reasons record built by `calculate_meal_score` for a feasible meal; the
macro fields are absent when the macro calorie total is not positive,
mirroring the keys the Python code conditionally inserts. -/
structure ScoreDetail where
  protein_efficiency : ℚ
  precision : ℚ
  macro_balance : Option ℚ
  macros : Option MacroPcts
  composition : ℚ
  categories : List String
  has_protein : Bool
  has_vegetable : Bool
  has_carb : Bool
deriving DecidableEq

/-- Sum of the protein fields of a list of items. -/
def sumProtein (items : List Item) : ℚ := (items.map Item.protein).sum

/-- Sum of the calories fields of a list of items. -/
def sumCalories (items : List Item) : ℚ := (items.map Item.calories).sum

/-- Sum of the fat fields of a list of items. -/
def sumFat (items : List Item) : ℚ := (items.map Item.fat).sum

/-- Sum of the carbs fields of a list of items. -/
def sumCarbs (items : List Item) : ℚ := (items.map Item.carbs).sum

/-- Embedding of `DiningHallOptimizer.calculate_meal_score`: the pair of the
composite score and the reasons record, with an infeasible meal mapped to
score 0 and empty reasons (modelled as none). -/
def calculate_meal_score (items : List Item) (protein_goal calorie_limit : ℚ) :
    ℚ × Option ScoreDetail :=
  let total_protein := sumProtein items
  let total_calories := sumCalories items
  let total_fat := sumFat items
  let total_carbs := sumCarbs items
  if total_protein < protein_goal ∨ calorie_limit < total_calories then (0, none)
  else
    let protein_per_cal := total_protein / max total_calories 1
    let efficiency_score := min (protein_per_cal * 80) 40
    let protein_waste := total_protein - protein_goal
    let protein_precision := max 0 (10 - protein_waste * 0.3)
    let calorie_usage := total_calories / max calorie_limit 1
    let calorie_precision := if calorie_usage ≤ 1 then 10 * calorie_usage else 0
    let precision_score := protein_precision + calorie_precision
    let total_cals_from_macros := total_protein * 4 + total_carbs * 4 + total_fat * 9
    let macroPart : ℚ × Option ℚ × Option MacroPcts :=
      if 0 < total_cals_from_macros then
        let protein_pct := total_protein * 4 / total_cals_from_macros
        let carb_pct := total_carbs * 4 / total_cals_from_macros
        let fat_pct := total_fat * 9 / total_cals_from_macros
        let balance_score : ℚ :=
          (if 0.25 ≤ protein_pct ∧ protein_pct ≤ 0.35 then 10
           else if 0.20 ≤ protein_pct ∧ protein_pct ≤ 0.40 then 5 else 0) +
          (if 0.40 ≤ carb_pct ∧ carb_pct ≤ 0.55 then 10
           else if 0.30 ≤ carb_pct ∧ carb_pct ≤ 0.65 then 5 else 0) +
          (if 0.20 ≤ fat_pct ∧ fat_pct ≤ 0.30 then 5
           else if 0.15 ≤ fat_pct ∧ fat_pct ≤ 0.40 then 2 else 0)
        (balance_score, some balance_score, some ⟨protein_pct, carb_pct, fat_pct⟩)
      else (0, none, none)
    let categories := items.map categorize_food
    let has_protein := categories.contains "protein"
    let has_vegetable := categories.contains "vegetable" || categories.contains "fruit"
    let has_carb := categories.contains "carb"
    let composition_score : ℚ :=
      (if has_protein then 7 else 0) + (if has_vegetable then 5 else 0) +
      (if has_carb then 2 else 0) + min (categories.dedup.length : ℚ) 3
    let score := efficiency_score + precision_score + macroPart.1 +
      min composition_score 15
    (score,
     some ⟨protein_per_cal, precision_score, macroPart.2.1, macroPart.2.2,
           min composition_score 15, categories, has_protein, has_vegetable, has_carb⟩)

/-- Result entry of `find_combinations`: the member items with the stored
total protein and total calories. -/
abbrev Combo := List Item × ℚ × ℚ

/-- Annotation that `find_combinations` performs in place on each valid
item: category and protein efficiency are attached. -/
def annotate (it : Item) : Item :=
  { it with
    category := categorize_food it
    protein_efficiency := it.protein / max it.calories 1 }

/-- Calorie validity and optional dining-hall filtering applied by
`find_combinations` before annotation. -/
def validItems (menu : List Item) (calorie_limit : ℚ) (filt : Option String) :
    List Item :=
  let valid := menu.filter (fun it =>
    decide (0 < it.calories) && decide (it.calories < calorie_limit))
  match filt with
  | some hall => valid.filter (fun it => it.dining_hall == hall)
  | none => valid

/-- Valid items with the in-search annotation applied. -/
def annotatedItems (menu : List Item) (calorie_limit : ℚ) (filt : Option String) :
    List Item :=
  (validItems menu calorie_limit filt).map annotate

/-- Ordering realizing the Python sort key
(-protein_efficiency, -protein) in ascending order. Python list.sort is a
stable sort; the stable `List.insertionSort` computes the same list. -/
def proteinOrder (a b : Item) : Prop :=
  b.protein_efficiency < a.protein_efficiency ∨
    (a.protein_efficiency = b.protein_efficiency ∧ b.protein ≤ a.protein)

instance : DecidableRel proteinOrder := fun a b => by
  unfold proteinOrder; infer_instance

/-- Ordering realizing the Python sort key
(-protein_efficiency, calories) in ascending order. -/
def calorieOrder (a b : Item) : Prop :=
  b.protein_efficiency < a.protein_efficiency ∨
    (a.protein_efficiency = b.protein_efficiency ∧ a.calories ≤ b.calories)

instance : DecidableRel calorieOrder := fun a b => by
  unfold calorieOrder; infer_instance

/-- Protein pool: annotated valid items with at least 10g protein, stably
sorted by efficiency then protein, truncated to 30. -/
def topProteins (vitems : List Item) : List Item :=
  (List.insertionSort proteinOrder
    (vitems.filter (fun it => decide (10 ≤ it.protein)))).take 30

/-- Vegetable pool: annotated vegetable or fruit items under 100 calories,
stably sorted by efficiency then calories, truncated to 25. -/
def topVeggies (vitems : List Item) : List Item :=
  (List.insertionSort calorieOrder
    (vitems.filter (fun it =>
      (it.category == "vegetable" || it.category == "fruit") &&
        decide (it.calories < 100)))).take 25

/-- Carb pool: annotated carb items with at least 15g carbs and under 300
calories, stably sorted by efficiency then calories, truncated to 20. -/
def topCarbs (vitems : List Item) : List Item :=
  (List.insertionSort calorieOrder
    (vitems.filter (fun it =>
      it.category == "carb" && decide (15 ≤ it.carbs) &&
        decide (it.calories < 300)))).take 20

/-- Strategy 1 of `find_combinations`: protein + vegetable over the top 15
of each pool, skipping equal names, keeping feasible combinations. -/
def strategy1 (tps tvs : List Item) (pg cl : ℚ) : List Combo :=
  (tps.take 15).flatMap (fun protein =>
    (tvs.take 15).filterMap (fun veggie =>
      if protein.name == veggie.name then none
      else
        let combo := [protein, veggie]
        if pg ≤ sumProtein combo ∧ sumCalories combo ≤ cl then
          some (combo, sumProtein combo, sumCalories combo)
        else none))

/-- Strategy 2 of `find_combinations`: protein + vegetable + carb over the
top 12, 12 and 10 of the pools, with the name guards of the source. -/
def strategy2 (tps tvs tcs : List Item) (pg cl : ℚ) : List Combo :=
  (tps.take 12).flatMap (fun protein =>
    (tvs.take 12).flatMap (fun veggie =>
      if protein.name == veggie.name then []
      else
        (tcs.take 10).filterMap (fun carb =>
          if carb.name == protein.name || carb.name == veggie.name then none
          else
            let combo := [protein, veggie, carb]
            if pg ≤ sumProtein combo ∧ sumCalories combo ≤ cl then
              some (combo, sumProtein combo, sumCalories combo)
            else none)))

/-- Strategy 3 of `find_combinations`: protein + carb over the top 15 and
12 of the pools, skipping equal names. -/
def strategy3 (tps tcs : List Item) (pg cl : ℚ) : List Combo :=
  (tps.take 15).flatMap (fun protein =>
    (tcs.take 12).filterMap (fun carb =>
      if protein.name == carb.name then none
      else
        let combo := [protein, carb]
        if pg ≤ sumProtein combo ∧ sumCalories combo ≤ cl then
          some (combo, sumProtein combo, sumCalories combo)
        else none))

/-- Strategy 4 of `find_combinations`: double protein + vegetable, first
protein index below 10, second taken from the slice from the next index up
to 15, vegetables from the top 10, with the veggie-name guard of the
source. -/
def strategy4 (tps tvs : List Item) (pg cl : ℚ) : List Combo :=
  (List.range (min 10 tps.length)).flatMap (fun i =>
    let protein1 := tps.getD i default
    ((tps.take 15).drop (i + 1)).flatMap (fun protein2 =>
      (tvs.take 10).filterMap (fun veggie =>
        if veggie.name == protein1.name || veggie.name == protein2.name then none
        else
          let combo := [protein1, protein2, veggie]
          if pg ≤ sumProtein combo ∧ sumCalories combo ≤ cl then
            some (combo, sumProtein combo, sumCalories combo)
          else none)))

/-- Strategy 5 of `find_combinations`: a single item among the top 20
proteins when it alone meets the goal within the limit. -/
def strategy5 (tps : List Item) (pg cl : ℚ) : List Combo :=
  (tps.take 20).filterMap (fun item =>
    if pg ≤ item.protein ∧ item.calories ≤ cl then
      some ([item], item.protein, item.calories)
    else none)

/-- Candidate combinations in generation order: the five strategies of the
source, appended in the order they run. -/
def validCombos (menu : List Item) (pg cl : ℚ) (filt : Option String) :
    List Combo :=
  let vitems := annotatedItems menu cl filt
  let tps := topProteins vitems
  let tvs := topVeggies vitems
  let tcs := topCarbs vitems
  strategy1 tps tvs pg cl ++ strategy2 tps tvs tcs pg cl ++
    strategy3 tps tcs pg cl ++ strategy4 tps tvs pg cl ++ strategy5 tps pg cl

/-- Lexicographic comparison of character lists by code point, the order
Python's sorted uses on strings. -/
def charListLE : List Char → List Char → Bool
  | [], _ => true
  | _ :: _, [] => false
  | c :: cs, d :: ds =>
    decide (c.toNat < d.toNat) || (c == d && charListLE cs ds)

/-- Code-point lexicographic order on names. -/
def nameOrder (a b : String) : Prop := charListLE a.data b.data = true

instance : DecidableRel nameOrder := fun a b => by
  unfold nameOrder; infer_instance

/-- Deduplication key of a combination: the sorted tuple of member item
names. -/
def comboKey (c : Combo) : List String :=
  List.insertionSort nameOrder (c.1.map Item.name)

/-- Deduplication pass over candidates with the set of seen keys modelled
as a list: the first combination with each key is kept. -/
def dedupCombos : List (List String) → List Combo → List Combo
  | _, [] => []
  | seen, c :: rest =>
    if comboKey c ∈ seen then dedupCombos seen rest
    else c :: dedupCombos (comboKey c :: seen) rest

/-- Deduplicated candidates in first-occurrence order. -/
def uniqueCombos (menu : List Item) (pg cl : ℚ) (filt : Option String) :
    List Combo :=
  dedupCombos [] (validCombos menu pg cl filt)

/-- Protein efficiency of a combination as used by the final sort. -/
def comboEff (c : Combo) : ℚ := c.2.1 / max c.2.2 1

/-- Ordering realizing the final Python sort key
(-efficiency, -total_protein) in ascending order. -/
def comboOrder (a b : Combo) : Prop :=
  comboEff b < comboEff a ∨ (comboEff a = comboEff b ∧ b.2.1 ≤ a.2.1)

instance : DecidableRel comboOrder := fun a b => by
  unfold comboOrder; infer_instance

/-- Deduplicated candidates stably sorted by descending protein efficiency
with descending total protein as tiebreak. -/
def rankedCombos (menu : List Item) (pg cl : ℚ) (filt : Option String) :
    List Combo :=
  List.insertionSort comboOrder (uniqueCombos menu pg cl filt)

/-- Embedding of `DiningHallOptimizer.find_combinations`: the ranked,
deduplicated feasible combinations, truncated to the top 15. -/
def find_combinations (menu : List Item) (protein_goal calorie_limit : ℚ)
    (filt : Option String) : List Combo :=
  (rankedCombos menu protein_goal calorie_limit filt).take 15

/-- Predicate of the calorie and dining-hall filters combined: exactly the
items that the Python code annotates in place during a search. -/
def passesFilters (calorie_limit : ℚ) (filt : Option String) (it : Item) : Bool :=
  (decide (0 < it.calories) && decide (it.calories < calorie_limit)) &&
    (match filt with
     | some hall => it.dining_hall == hall
     | none => true)

/-- State of a caller-owned item record after a `find_combinations` call:
the call mutates exactly the records that pass its filters, attaching
category and protein efficiency. -/
def postMutate (calorie_limit : ℚ) (filt : Option String) (it : Item) : Item :=
  if passesFilters calorie_limit filt it then annotate it else it

/-- Item record constructor for concrete test menus, with the annotation
fields at their pre-search defaults. -/
def mkItem (n : String) (cal p f c : ℚ) (hall : String) : Item :=
  { name := n, calories := cal, protein := p, fat := f, carbs := c,
    sodium := 0, serving := "", dining_hall := hall, category := "",
    protein_efficiency := 0 }

/-- Grilled chicken record of the specification's worked scenario. -/
def grilledChicken : Item := mkItem "Grilled Chicken" 200 35 5 0 "West Village"

/-- Steamed broccoli record of the specification's worked scenario. -/
def steamedBroccoli : Item := mkItem "Steamed Broccoli" 30 3 0 6 "West Village"

/-- Chicken dish as offered by the first dining hall. -/
def chickenWest : Item := mkItem "Chicken" 200 20 0 0 "West Village"

/-- Chicken dish with the same name offered by the second dining hall. -/
def chickenNorth : Item := mkItem "Chicken" 200 20 0 0 "North Ave Dining Hall"

/-- Broccoli side dish for the duplicate-name scenario. -/
def broccoliSide : Item := mkItem "Broccoli" 30 3 0 6 "West Village"

/-- Protein pool entry number i for the strategy-4 enumeration scenario. -/
def poolProtein (i : Nat) : Item := mkItem ("P" ++ toString i) 200 20 0 0 "West Village"

/-- Protein pool of 12 distinct items for the strategy-4 enumeration
scenario. -/
def poolTwelve : List Item := (List.range 12).map poolProtein

/-- Vegetable pool entry for the strategy-4 enumeration scenario. -/
def poolVeg : Item := mkItem "Veg" 30 3 0 6 "West Village"

/-! Order-theoretic facts about the comparison functions, needed for the
sortedness and canonical-key theorems. -/

lemma char_eq_of_toNat_eq {a b : Char} (h : a.toNat = b.toNat) : a = b :=
  Char.ext (UInt32.ext h)

lemma charListLE_total : ∀ a b : List Char, charListLE a b = true ∨ charListLE b a = true
  | [], _ => Or.inl rfl
  | _ :: _, [] => Or.inr rfl
  | c :: cs, d :: ds => by
    rcases Nat.lt_trichotomy c.toNat d.toNat with h | h | h
    · left; simp [charListLE, h]
    · have hcd : c = d := char_eq_of_toNat_eq h
      subst hcd
      rcases charListLE_total cs ds with h2 | h2
      · left; simp [charListLE, h2]
      · right; simp [charListLE, h2]
    · right; simp [charListLE, h]

lemma charListLE_cons_iff {c d : Char} {cs ds : List Char} :
    charListLE (c :: cs) (d :: ds) = true ↔
      c.toNat < d.toNat ∨ (c = d ∧ charListLE cs ds = true) := by
  simp [charListLE, Bool.or_eq_true, Bool.and_eq_true, decide_eq_true_iff, beq_iff_eq]

lemma charListLE_trans :
    ∀ a b c : List Char, charListLE a b = true → charListLE b c = true →
      charListLE a c = true
  | [], _, _, _, _ => rfl
  | _ :: _, [], _, h, _ => by simp [charListLE] at h
  | _ :: _, _ :: _, [], _, h => by simp [charListLE] at h
  | a :: as, b :: bs, c :: cs, h1, h2 => by
    rw [charListLE_cons_iff] at h1 h2 ⊢
    rcases h1 with h1 | ⟨rfl, h1⟩
    · rcases h2 with h2 | ⟨rfl, _⟩
      · exact Or.inl (h1.trans h2)
      · exact Or.inl h1
    · rcases h2 with h2 | ⟨rfl, h2⟩
      · exact Or.inl h2
      · exact Or.inr ⟨rfl, charListLE_trans as bs cs h1 h2⟩

lemma charListLE_antisymm :
    ∀ a b : List Char, charListLE a b = true → charListLE b a = true → a = b
  | [], [], _, _ => rfl
  | [], _ :: _, _, h => by simp [charListLE] at h
  | _ :: _, [], h, _ => by simp [charListLE] at h
  | a :: as, b :: bs, h1, h2 => by
    rw [charListLE_cons_iff] at h1 h2
    rcases h1 with h1 | ⟨rfl, h1⟩
    · rcases h2 with h2 | ⟨rfl, _⟩
      · omega
      · omega
    · rcases h2 with h2 | ⟨_, h2⟩
      · omega
      · rw [charListLE_antisymm as bs h1 h2]

instance : IsTotal String nameOrder :=
  ⟨fun a b => charListLE_total a.data b.data⟩

instance : IsTrans String nameOrder :=
  ⟨fun a b c => charListLE_trans a.data b.data c.data⟩

instance : IsAntisymm String nameOrder :=
  ⟨fun a b h1 h2 => String.ext (charListLE_antisymm a.data b.data h1 h2)⟩

instance : IsTotal Combo comboOrder := by
  constructor
  intro a b
  unfold comboOrder
  rcases lt_trichotomy (comboEff a) (comboEff b) with h | h | h
  · exact Or.inr (Or.inl h)
  · rcases le_total b.2.1 a.2.1 with h2 | h2
    · exact Or.inl (Or.inr ⟨h, h2⟩)
    · exact Or.inr (Or.inr ⟨h.symm, h2⟩)
  · exact Or.inl (Or.inl h)

instance : IsTrans Combo comboOrder := by
  constructor
  intro a b c hab hbc
  unfold comboOrder at hab hbc ⊢
  rcases hab with hab | ⟨hab, hab2⟩
  · rcases hbc with hbc | ⟨hbc, _⟩
    · exact Or.inl (hbc.trans hab)
    · exact Or.inl (hbc ▸ hab)
  · rcases hbc with hbc | ⟨hbc, hbc2⟩
    · exact Or.inl (hab.symm ▸ hbc)
    · exact Or.inr ⟨hab.trans hbc, hbc2.trans hab2⟩

/-! Membership chains through the pipeline stages. -/

lemma validItems_sublist (menu : List Item) (cl : ℚ) (filt : Option String) :
    (validItems menu cl filt).Sublist menu := by
  unfold validItems
  cases filt
  · exact List.filter_sublist menu
  · exact (List.filter_sublist _).trans (List.filter_sublist menu)

lemma mem_annotatedItems {menu : List Item} {cl : ℚ} {filt : Option String} {it : Item}
    (h : it ∈ annotatedItems menu cl filt) : ∃ it0 ∈ menu, it = annotate it0 := by
  unfold annotatedItems at h
  rw [List.mem_map] at h
  obtain ⟨it0, h0, rfl⟩ := h
  exact ⟨it0, (validItems_sublist menu cl filt).mem h0, rfl⟩

lemma topProteins_subset {v : List Item} {it : Item} (h : it ∈ topProteins v) :
    it ∈ v := by
  unfold topProteins at h
  have h1 := (List.take_sublist _ _).mem h
  rw [(List.perm_insertionSort _ _).mem_iff] at h1
  exact List.mem_of_mem_filter h1

lemma topVeggies_subset {v : List Item} {it : Item} (h : it ∈ topVeggies v) :
    it ∈ v := by
  unfold topVeggies at h
  have h1 := (List.take_sublist _ _).mem h
  rw [(List.perm_insertionSort _ _).mem_iff] at h1
  exact List.mem_of_mem_filter h1

lemma topCarbs_subset {v : List Item} {it : Item} (h : it ∈ topCarbs v) :
    it ∈ v := by
  unfold topCarbs at h
  have h1 := (List.take_sublist _ _).mem h
  rw [(List.perm_insertionSort _ _).mem_iff] at h1
  exact List.mem_of_mem_filter h1

/-! Facts about the deduplication pass. -/

lemma dedupCombos_sublist : ∀ (l : List Combo) (seen : List (List String)),
    (dedupCombos seen l).Sublist l
  | [], _ => List.Sublist.refl _
  | c :: rest, seen => by
    unfold dedupCombos
    split
    · exact (dedupCombos_sublist rest seen).cons c
    · exact (dedupCombos_sublist rest _).cons₂ c

lemma comboKey_not_mem_of_mem_dedup :
    ∀ {l : List Combo} {seen : List (List String)} {c : Combo},
      c ∈ dedupCombos seen l → comboKey c ∉ seen
  | [], _, c, h => by simp [dedupCombos] at h
  | c0 :: rest, seen, c, h => by
    unfold dedupCombos at h
    split at h
    · exact comboKey_not_mem_of_mem_dedup h
    · rcases List.mem_cons.mp h with rfl | h2
      · assumption
      · intro hmem
        exact comboKey_not_mem_of_mem_dedup h2 (List.mem_cons_of_mem _ hmem)

lemma dedup_keys_nodup : ∀ (l : List Combo) (seen : List (List String)),
    ((dedupCombos seen l).map comboKey).Nodup
  | [], _ => by simp [dedupCombos]
  | c0 :: rest, seen => by
    unfold dedupCombos
    split
    · exact dedup_keys_nodup rest seen
    · rw [List.map_cons, List.nodup_cons]
      refine ⟨?_, dedup_keys_nodup rest _⟩
      intro hmem
      rw [List.mem_map] at hmem
      obtain ⟨d, hd, hkey⟩ := hmem
      exact comboKey_not_mem_of_mem_dedup hd (hkey ▸ List.mem_cons_self _ _)

lemma find?_dedupCombos :
    ∀ (l : List Combo) (seen : List (List String)) (k : List String), k ∉ seen →
      (dedupCombos seen l).find? (fun c => comboKey c == k) =
        l.find? (fun c => comboKey c == k)
  | [], _, _, _ => rfl
  | c0 :: rest, seen, k, hk => by
    unfold dedupCombos
    split
    · next hseen =>
      have hne : (comboKey c0 == k) = false := by
        rw [beq_eq_false_iff_ne]
        intro h
        exact hk (h ▸ hseen)
      rw [List.find?_cons, hne]
      exact find?_dedupCombos rest seen k hk
    · next hseen =>
      by_cases heq : comboKey c0 = k
      · simp [List.find?_cons, heq]
      · have hne : (comboKey c0 == k) = false := by rwa [beq_eq_false_iff_ne]
        rw [List.find?_cons, hne, List.find?_cons, hne]
        refine find?_dedupCombos rest _ k ?_
        intro h
        rcases List.mem_cons.mp h with h | h
        · exact heq h.symm
        · exact hk h

lemma countP_eq_zero_of_seen {l : List Combo} {seen : List (List String)}
    {k : List String} (hk : k ∈ seen) :
    (dedupCombos seen l).countP (fun c => comboKey c == k) = 0 := by
  rw [List.countP_eq_zero]
  intro c hc
  simp only [beq_iff_eq]
  intro h
  exact comboKey_not_mem_of_mem_dedup hc (h ▸ hk)

lemma countP_dedupCombos :
    ∀ (l : List Combo) (seen : List (List String)) (k : List String), k ∉ seen →
      (dedupCombos seen l).countP (fun c => comboKey c == k) =
        if k ∈ l.map comboKey then 1 else 0
  | [], _, _, _ => by simp [dedupCombos]
  | c0 :: rest, seen, k, hk => by
    unfold dedupCombos
    split
    · next hseen =>
      rw [countP_dedupCombos rest seen k hk]
      have hne : comboKey c0 ≠ k := fun h => hk (h ▸ hseen)
      have hiff : (k ∈ List.map comboKey (c0 :: rest)) ↔ k ∈ List.map comboKey rest := by
        rw [List.map_cons, List.mem_cons]
        exact or_iff_right (fun h => hne h.symm)
      rw [if_congr hiff rfl rfl]
    · next hseen =>
      by_cases heq : comboKey c0 = k
      · subst heq
        rw [List.countP_cons]
        have h0 : (dedupCombos (comboKey c0 :: seen) rest).countP
            (fun c => comboKey c == comboKey c0) = 0 :=
          countP_eq_zero_of_seen (List.mem_cons_self _ _)
        simp [h0]
      · rw [List.countP_cons]
        have hne : (comboKey c0 == k) = false := by rwa [beq_eq_false_iff_ne]
        rw [hne]
        have hnk : k ∉ comboKey c0 :: seen := by
          intro h
          rcases List.mem_cons.mp h with h | h
          · exact heq h.symm
          · exact hk h
        rw [countP_dedupCombos rest _ k hnk]
        have hiff : (k ∈ List.map comboKey (c0 :: rest)) ↔ k ∈ List.map comboKey rest := by
          rw [List.map_cons, List.mem_cons]
          exact or_iff_right (fun h => heq h.symm)
        rw [if_congr hiff rfl rfl]
        simp

/-! Inversion lemmas for the five enumeration strategies. -/

lemma strategy1_spec {tps tvs : List Item} {pg cl : ℚ} {c : Combo}
    (h : c ∈ strategy1 tps tvs pg cl) :
    ∃ p v, p ∈ tps ∧ v ∈ tvs ∧ p.name ≠ v.name ∧
      c = ([p, v], sumProtein [p, v], sumCalories [p, v]) ∧
      pg ≤ sumProtein [p, v] ∧ sumCalories [p, v] ≤ cl := by
  unfold strategy1 at h
  rw [List.mem_flatMap] at h
  obtain ⟨p, hp, h⟩ := h
  rw [List.mem_filterMap] at h
  obtain ⟨v, hv, hsome⟩ := h
  refine ⟨p, v, (List.take_sublist _ _).mem hp, (List.take_sublist _ _).mem hv, ?_⟩
  split at hsome
  · cases hsome
  · next hname =>
    dsimp only at hsome
    split at hsome
    · next hfeas =>
      exact ⟨fun he => hname (by rw [he]; exact beq_self_eq_true _),
        (Option.some_inj.mp hsome).symm, hfeas.1, hfeas.2⟩
    · cases hsome

lemma strategy2_spec {tps tvs tcs : List Item} {pg cl : ℚ} {c : Combo}
    (h : c ∈ strategy2 tps tvs tcs pg cl) :
    ∃ p v cb, p ∈ tps ∧ v ∈ tvs ∧ cb ∈ tcs ∧
      p.name ≠ v.name ∧ cb.name ≠ p.name ∧ cb.name ≠ v.name ∧
      c = ([p, v, cb], sumProtein [p, v, cb], sumCalories [p, v, cb]) ∧
      pg ≤ sumProtein [p, v, cb] ∧ sumCalories [p, v, cb] ≤ cl := by
  unfold strategy2 at h
  rw [List.mem_flatMap] at h
  obtain ⟨p, hp, h⟩ := h
  rw [List.mem_flatMap] at h
  obtain ⟨v, hv, h⟩ := h
  split at h
  · cases h
  · next hname =>
    rw [List.mem_filterMap] at h
    obtain ⟨cb, hcb, hsome⟩ := h
    split at hsome
    · cases hsome
    · next hname2 =>
      dsimp only at hsome
      split at hsome
      · next hfeas =>
        rw [Bool.or_eq_true] at hname2
        push_neg at hname2
        refine ⟨p, v, cb, (List.take_sublist _ _).mem hp, (List.take_sublist _ _).mem hv,
          (List.take_sublist _ _).mem hcb, ?_, ?_, ?_,
          (Option.some_inj.mp hsome).symm, hfeas.1, hfeas.2⟩
        · exact fun he => hname (by rw [he]; exact beq_self_eq_true _)
        · exact fun he => hname2.1 (by rw [he]; exact beq_self_eq_true _)
        · exact fun he => hname2.2 (by rw [he]; exact beq_self_eq_true _)
      · cases hsome

lemma strategy3_spec {tps tcs : List Item} {pg cl : ℚ} {c : Combo}
    (h : c ∈ strategy3 tps tcs pg cl) :
    ∃ p cb, p ∈ tps ∧ cb ∈ tcs ∧ p.name ≠ cb.name ∧
      c = ([p, cb], sumProtein [p, cb], sumCalories [p, cb]) ∧
      pg ≤ sumProtein [p, cb] ∧ sumCalories [p, cb] ≤ cl := by
  unfold strategy3 at h
  rw [List.mem_flatMap] at h
  obtain ⟨p, hp, h⟩ := h
  rw [List.mem_filterMap] at h
  obtain ⟨cb, hcb, hsome⟩ := h
  refine ⟨p, cb, (List.take_sublist _ _).mem hp, (List.take_sublist _ _).mem hcb, ?_⟩
  split at hsome
  · cases hsome
  · next hname =>
    dsimp only at hsome
    split at hsome
    · next hfeas =>
      exact ⟨fun he => hname (by rw [he]; exact beq_self_eq_true _),
        (Option.some_inj.mp hsome).symm, hfeas.1, hfeas.2⟩
    · cases hsome

lemma strategy4_spec {tps tvs : List Item} {pg cl : ℚ} {c : Combo}
    (h : c ∈ strategy4 tps tvs pg cl) :
    ∃ i v, i < 10 ∧ ∃ (hi : i < tps.length),
      v ∈ tvs ∧ ∃ p2 ∈ (tps.take 15).drop (i + 1),
      v.name ≠ tps[i].name ∧ v.name ≠ p2.name ∧
      c = ([tps[i], p2, v], sumProtein [tps[i], p2, v], sumCalories [tps[i], p2, v]) ∧
      pg ≤ sumProtein [tps[i], p2, v] ∧ sumCalories [tps[i], p2, v] ≤ cl := by
  unfold strategy4 at h
  rw [List.mem_flatMap] at h
  obtain ⟨i, hi, h⟩ := h
  rw [List.mem_range, lt_min_iff] at hi
  rw [List.mem_flatMap] at h
  obtain ⟨p2, hp2, h⟩ := h
  rw [List.mem_filterMap] at h
  obtain ⟨v, hv, hsome⟩ := h
  rw [List.getD_eq_getElem tps default hi.2] at hsome
  split at hsome
  · cases hsome
  · next hname =>
    dsimp only at hsome
    split at hsome
    · next hfeas =>
      rw [Bool.or_eq_true] at hname
      push_neg at hname
      refine ⟨i, v, hi.1, hi.2, (List.take_sublist _ _).mem hv, p2, hp2, ?_, ?_,
        (Option.some_inj.mp hsome).symm, hfeas.1, hfeas.2⟩
      · exact fun he => hname.1 (by rw [he]; exact beq_self_eq_true _)
      · exact fun he => hname.2 (by rw [he]; exact beq_self_eq_true _)
    · cases hsome

lemma strategy5_spec {tps : List Item} {pg cl : ℚ} {c : Combo}
    (h : c ∈ strategy5 tps pg cl) :
    ∃ it, it ∈ tps ∧ c = ([it], it.protein, it.calories) ∧
      pg ≤ it.protein ∧ it.calories ≤ cl := by
  unfold strategy5 at h
  rw [List.mem_filterMap] at h
  obtain ⟨it, hit, hsome⟩ := h
  split at hsome
  · next hfeas =>
    exact ⟨it, (List.take_sublist _ _).mem hit,
      (Option.some_inj.mp hsome).symm, hfeas.1, hfeas.2⟩
  · cases hsome

lemma strategy4_pair_mem {tps : List Item} {i : Nat} (_hi : i < tps.length)
    {p2 : Item} (h2 : p2 ∈ (tps.take 15).drop (i + 1)) : p2 ∈ tps :=
  ((List.drop_sublist _ _).trans (List.take_sublist _ _)).mem h2

lemma strategy4_pair_sublist {tps : List Item} {i : Nat} (hi : i < tps.length)
    {p2 : Item} (h2 : p2 ∈ (tps.take 15).drop (i + 1)) :
    [tps[i], p2].Sublist tps := by
  have hdt : ((tps.take 15).drop (i + 1)).Sublist (tps.drop (i + 1)) := by
    rw [List.drop_take]
    exact List.take_sublist _ _
  have h2m : p2 ∈ tps.drop (i + 1) := hdt.mem h2
  have hcons : (tps[i] :: tps.drop (i + 1)).Sublist tps := by
    have hdi : tps[i] :: tps.drop (i + 1) = tps.drop i := (List.drop_eq_getElem_cons hi).symm
    rw [hdi]
    exact List.drop_sublist _ _
  exact ((List.singleton_sublist.mpr h2m).cons₂ _).trans hcons

/-- Bundled facts about every generated candidate: feasibility, stored
totals equal to the member sums, at most three members, and all members
drawn from the annotated valid items. -/
lemma validCombos_spec {menu : List Item} {pg cl : ℚ} {filt : Option String}
    {c : Combo} (h : c ∈ validCombos menu pg cl filt) :
    (pg ≤ c.2.1 ∧ c.2.2 ≤ cl) ∧
    (c.2.1 = sumProtein c.1 ∧ c.2.2 = sumCalories c.1) ∧
    c.1.length ≤ 3 ∧ ∀ it ∈ c.1, it ∈ annotatedItems menu cl filt := by
  unfold validCombos at h
  simp only [List.mem_append] at h
  rcases h with ((((h | h) | h) | h) | h)
  · obtain ⟨p, v, hp, hv, _, rfl, hf1, hf2⟩ := strategy1_spec h
    refine ⟨⟨hf1, hf2⟩, ⟨rfl, rfl⟩, by simp, ?_⟩
    intro it hit
    rcases hit with _ | ⟨_, hit⟩
    · exact topProteins_subset hp
    · rcases hit with _ | ⟨_, hit⟩
      · exact topVeggies_subset hv
      · cases hit
  · obtain ⟨p, v, cb, hp, hv, hcb, _, _, _, rfl, hf1, hf2⟩ := strategy2_spec h
    refine ⟨⟨hf1, hf2⟩, ⟨rfl, rfl⟩, by simp, ?_⟩
    intro it hit
    rcases hit with _ | ⟨_, hit⟩
    · exact topProteins_subset hp
    · rcases hit with _ | ⟨_, hit⟩
      · exact topVeggies_subset hv
      · rcases hit with _ | ⟨_, hit⟩
        · exact topCarbs_subset hcb
        · cases hit
  · obtain ⟨p, cb, hp, hcb, _, rfl, hf1, hf2⟩ := strategy3_spec h
    refine ⟨⟨hf1, hf2⟩, ⟨rfl, rfl⟩, by simp, ?_⟩
    intro it hit
    rcases hit with _ | ⟨_, hit⟩
    · exact topProteins_subset hp
    · rcases hit with _ | ⟨_, hit⟩
      · exact topCarbs_subset hcb
      · cases hit
  · obtain ⟨i, v, _, hi, hv, p2, hp2, _, _, rfl, hf1, hf2⟩ := strategy4_spec h
    refine ⟨⟨hf1, hf2⟩, ⟨rfl, rfl⟩, by simp, ?_⟩
    intro it hit
    rcases hit with _ | ⟨_, hit⟩
    · exact topProteins_subset (List.getElem_mem hi)
    · rcases hit with _ | ⟨_, hit⟩
      · exact topProteins_subset (strategy4_pair_mem hi hp2)
      · rcases hit with _ | ⟨_, hit⟩
        · exact topVeggies_subset hv
        · cases hit
  · obtain ⟨it0, hit0, rfl, hf1, hf2⟩ := strategy5_spec h
    refine ⟨⟨by simpa [sumProtein] using hf1, by simpa [sumCalories] using hf2⟩,
      ⟨by simp [sumProtein], by simp [sumCalories]⟩, by simp, ?_⟩
    intro it hit
    rcases hit with _ | ⟨_, hit⟩
    · exact topProteins_subset hit0
    · cases hit

lemma mem_validCombos_of_mem_find {menu : List Item} {pg cl : ℚ}
    {filt : Option String} {c : Combo} (h : c ∈ find_combinations menu pg cl filt) :
    c ∈ validCombos menu pg cl filt := by
  unfold find_combinations rankedCombos at h
  have h1 := (List.take_sublist _ _).mem h
  rw [(List.perm_insertionSort _ _).mem_iff] at h1
  exact (dedupCombos_sublist _ _).mem h1

/-- C1: for every list of items and every protein goal and calorie limit,
every combination returned by `find_combinations` satisfies
total_protein ≥ protein_goal and total_calories ≤ calorie_limit, and the
stored totals equal the sums of the member items' protein and calories
fields. -/
theorem find_combinations_feasible (menu : List Item) (pg cl : ℚ)
    (filt : Option String) :
    ∀ c ∈ find_combinations menu pg cl filt,
      (pg ≤ c.2.1 ∧ c.2.2 ≤ cl) ∧
      c.2.1 = sumProtein c.1 ∧ c.2.2 = sumCalories c.1 := by
  intro c hc
  have h := validCombos_spec (mem_validCombos_of_mem_find hc)
  exact ⟨h.1, h.2.1⟩

unseal Rat.add Rat.mul Rat.inv Rat.sub Rat.ofScientific in
/-- Witness for C1 at the specification's worked scenario. -/
theorem find_combinations_feasible_witness :
    ((30 : ℚ) ≤ (([annotate grilledChicken], (35 : ℚ), (200 : ℚ)) : Combo).2.1 ∧
      (([annotate grilledChicken], (35 : ℚ), (200 : ℚ)) : Combo).2.2 ≤ 300) ∧
    (([annotate grilledChicken], (35 : ℚ), (200 : ℚ)) : Combo).2.1 =
      sumProtein (([annotate grilledChicken], (35 : ℚ), (200 : ℚ)) : Combo).1 ∧
    (([annotate grilledChicken], (35 : ℚ), (200 : ℚ)) : Combo).2.2 =
      sumCalories (([annotate grilledChicken], (35 : ℚ), (200 : ℚ)) : Combo).1 :=
  find_combinations_feasible [grilledChicken, steamedBroccoli] 30 300 none
    ([annotate grilledChicken], 35, 200) (by decide)

/-- C4 (amended): each record returned by `find_combinations` consists of
exactly its member items together with the total protein and total
calories computed from them; no score breakdown is part of the result. -/
theorem find_combinations_record_shape (menu : List Item) (pg cl : ℚ)
    (filt : Option String) :
    ∀ c ∈ find_combinations menu pg cl filt,
      c = (c.1, sumProtein c.1, sumCalories c.1) := by
  intro c hc
  have h := (validCombos_spec (mem_validCombos_of_mem_find hc)).2.1
  obtain ⟨l, tp, tc⟩ := c
  simp only at h
  rw [h.1, h.2]

unseal Rat.add Rat.mul Rat.inv Rat.sub Rat.ofScientific in
/-- Witness for the amended C4 at the specification's worked scenario. -/
theorem find_combinations_record_shape_witness :
    (([annotate grilledChicken], (35 : ℚ), (200 : ℚ)) : Combo) =
      ((([annotate grilledChicken], (35 : ℚ), (200 : ℚ)) : Combo).1,
        sumProtein (([annotate grilledChicken], (35 : ℚ), (200 : ℚ)) : Combo).1,
        sumCalories (([annotate grilledChicken], (35 : ℚ), (200 : ℚ)) : Combo).1) :=
  find_combinations_record_shape [grilledChicken, steamedBroccoli] 30 300 none
    ([annotate grilledChicken], 35, 200) (by decide)

unseal Rat.add Rat.mul Rat.inv Rat.sub Rat.ofScientific in
/-- C4 (counterexample): on the specification's worked scenario the
returned records are bare (items, total_protein, total_calories) triples,
and the composite scores `calculate_meal_score` would assign to the two
returned combinations differ from every numeric component stored in the
records, so no per-factor score breakdown is exposed. -/
theorem find_combinations_no_score_exposed :
    find_combinations [grilledChicken, steamedBroccoli] 30 300 none =
      [([annotate grilledChicken], 35, 200),
       ([annotate grilledChicken, annotate steamedBroccoli], 38, 230)] ∧
    (calculate_meal_score [annotate grilledChicken] 30 300).1 = 253 / 6 ∧
    (calculate_meal_score [annotate grilledChicken, annotate steamedBroccoli]
        30 300).1 = 16382 / 345 ∧
    ((253 : ℚ) / 6 ≠ 35 ∧ (253 : ℚ) / 6 ≠ 200) ∧
    ((16382 : ℚ) / 345 ≠ 38 ∧ (16382 : ℚ) / 345 ≠ 230) := by
  decide

/-- C8: `find_combinations` signals infeasibility by an empty result, not
an error: the empty menu yields the empty sequence, and so does any menu
whose items' protein fields are bounded by P with 3·P below the goal, so
that no candidate (of at most three members) can reach the goal. -/
theorem find_combinations_empty_cases (pg cl : ℚ) (filt : Option String) :
    find_combinations [] pg cl filt = [] ∧
    ∀ (menu : List Item) (P : ℚ), 0 ≤ P → (∀ it ∈ menu, it.protein ≤ P) →
      3 * P < pg → find_combinations menu pg cl filt = [] := by
  constructor
  · cases filt <;> rfl
  · intro menu P hP hbound h3
    rw [List.eq_nil_iff_forall_not_mem]
    intro c hc
    have h := validCombos_spec (mem_validCombos_of_mem_find hc)
    have hmem : ∀ x ∈ c.1.map Item.protein, x ≤ P := by
      intro x hx
      rw [List.mem_map] at hx
      obtain ⟨it, hit, rfl⟩ := hx
      obtain ⟨it0, hit0, rfl⟩ := mem_annotatedItems (h.2.2.2 it hit)
      exact hbound it0 hit0
    have hsum : sumProtein c.1 ≤ (c.1.length : ℚ) * P := by
      have := List.sum_le_card_nsmul (c.1.map Item.protein) P hmem
      rwa [List.length_map, nsmul_eq_mul] at this
    have hlen : ((c.1.length : ℚ)) ≤ 3 := by exact_mod_cast h.2.2.1
    have h31 : (c.1.length : ℚ) * P ≤ 3 * P := mul_le_mul_of_nonneg_right hlen hP
    have hfeas := h.1.1
    rw [h.2.1.1] at hfeas
    linarith

unseal Rat.add Rat.mul Rat.inv Rat.sub Rat.ofScientific in
/-- Witness for C8: the unreachable protein goal of 200 on the worked
scenario's pool produces the empty sequence. -/
theorem find_combinations_empty_cases_witness :
    find_combinations [grilledChicken, steamedBroccoli] 200 300 none = [] :=
  (find_combinations_empty_cases 200 300 none).2 [grilledChicken, steamedBroccoli]
    35 (by norm_num) (by decide) (by norm_num)

/-- C5: the result of `find_combinations` has at most 15 entries and is
sorted by descending protein efficiency (total_protein over
max(total_calories, 1)) with descending total protein breaking ties; in
particular every adjacent pair satisfies those comparisons. -/
theorem find_combinations_ranking (menu : List Item) (pg cl : ℚ)
    (filt : Option String) :
    (find_combinations menu pg cl filt).length ≤ 15 ∧
    List.Sorted comboOrder (find_combinations menu pg cl filt) ∧
    ∀ (i : Nat) (h1 : i + 1 < (find_combinations menu pg cl filt).length),
      comboEff ((find_combinations menu pg cl filt).get ⟨i + 1, h1⟩) ≤
        comboEff ((find_combinations menu pg cl filt).get ⟨i, Nat.lt_of_succ_lt h1⟩) ∧
      (comboEff ((find_combinations menu pg cl filt).get ⟨i, Nat.lt_of_succ_lt h1⟩) =
          comboEff ((find_combinations menu pg cl filt).get ⟨i + 1, h1⟩) →
        ((find_combinations menu pg cl filt).get ⟨i + 1, h1⟩).2.1 ≤
          ((find_combinations menu pg cl filt).get ⟨i, Nat.lt_of_succ_lt h1⟩).2.1) := by
  have hsorted : List.Sorted comboOrder (find_combinations menu pg cl filt) := by
    unfold find_combinations rankedCombos
    exact List.Pairwise.sublist (List.take_sublist _ _)
      (List.sorted_insertionSort comboOrder _)
  refine ⟨?_, hsorted, ?_⟩
  · unfold find_combinations
    rw [List.length_take]
    exact min_le_left _ _
  · intro i h1
    have hadj : comboOrder ((find_combinations menu pg cl filt).get ⟨i, Nat.lt_of_succ_lt h1⟩)
        ((find_combinations menu pg cl filt).get ⟨i + 1, h1⟩) :=
      List.pairwise_iff_getElem.mp hsorted i (i + 1) (Nat.lt_of_succ_lt h1) h1 (by omega)
    unfold comboOrder at hadj
    rcases hadj with hlt | ⟨heq, htp⟩
    · refine ⟨le_of_lt hlt, ?_⟩
      intro heq2
      exact absurd hlt (by rw [heq2]; exact lt_irrefl _)
    · exact ⟨le_of_eq heq.symm, fun _ => htp⟩

unseal Rat.add Rat.mul Rat.inv Rat.sub Rat.ofScientific in
/-- Witness for C5's adjacency clause on the worked scenario, whose result
has two entries. -/
theorem find_combinations_ranking_witness :
    comboEff ((find_combinations [grilledChicken, steamedBroccoli] 30 300 none).get
        ⟨1, by decide⟩) ≤
      comboEff ((find_combinations [grilledChicken, steamedBroccoli] 30 300 none).get
        ⟨0, by decide⟩) :=
  ((find_combinations_ranking [grilledChicken, steamedBroccoli] 30 300 none).2.2
    0 (by decide)).1


/-! Name-distinctness machinery for claim C2. -/

lemma names_nodup_annotatedItems {menu : List Item} {cl : ℚ} {filt : Option String}
    (h : (menu.map Item.name).Nodup) :
    ((annotatedItems menu cl filt).map Item.name).Nodup := by
  have h1 : ((validItems menu cl filt).map Item.name).Nodup :=
    ((validItems_sublist menu cl filt).map Item.name).nodup h
  unfold annotatedItems
  rw [List.map_map]
  have hfun : Item.name ∘ annotate = Item.name := funext fun it => rfl
  rw [hfun]
  exact h1

lemma names_nodup_topProteins {v : List Item}
    (h : (v.map Item.name).Nodup) :
    ((topProteins v).map Item.name).Nodup := by
  unfold topProteins
  refine ((List.take_sublist _ _).map Item.name).nodup ?_
  refine ((List.perm_insertionSort proteinOrder _).map Item.name).symm.nodup ?_
  exact ((List.filter_sublist v).map Item.name).nodup h

/-- C2 (amended): when no two items of the input menu share a name, no
returned combination contains two member items with the same name; the
strategies' guards enforce this across categories, and distinct pool
positions enforce it between the two proteins of strategy 4. -/
theorem find_combinations_nodup_names (menu : List Item) (pg cl : ℚ)
    (filt : Option String) (hmenu : (menu.map Item.name).Nodup) :
    ∀ c ∈ find_combinations menu pg cl filt, (c.1.map Item.name).Nodup := by
  intro c hc
  have hvc := mem_validCombos_of_mem_find hc
  unfold validCombos at hvc
  simp only [List.mem_append] at hvc
  have hnames : ((topProteins (annotatedItems menu cl filt)).map Item.name).Nodup :=
    names_nodup_topProteins (names_nodup_annotatedItems hmenu)
  rcases hvc with ((((h | h) | h) | h) | h)
  · obtain ⟨p, v, _, _, hne, rfl, _, _⟩ := strategy1_spec h
    simp [List.nodup_cons, hne]
  · obtain ⟨p, v, cb, _, _, _, hne1, hne2, hne3, rfl, _, _⟩ := strategy2_spec h
    simp [List.nodup_cons, hne1, Ne.symm hne2, Ne.symm hne3]
  · obtain ⟨p, cb, _, _, hne, rfl, _, _⟩ := strategy3_spec h
    simp [List.nodup_cons, hne]
  · obtain ⟨i, v, _, hi, _, p2, hp2, hg1, hg2, rfl, _, _⟩ := strategy4_spec h
    have hpair : (([(topProteins (annotatedItems menu cl filt))[i], p2]).map
        Item.name).Nodup :=
      ((strategy4_pair_sublist hi hp2).map Item.name).nodup hnames
    rw [List.map_cons, List.map_cons, List.map_nil] at hpair
    have hab : (topProteins (annotatedItems menu cl filt))[i].name ≠ p2.name := by
      intro he
      exact (List.nodup_cons.mp hpair).1 (he ▸ List.mem_cons_self _ _)
    rw [List.map_cons, List.map_cons, List.map_cons, List.map_nil]
    refine List.nodup_cons.mpr ⟨?_, List.nodup_cons.mpr ⟨?_, List.nodup_singleton _⟩⟩
    · intro hmem
      rcases List.mem_cons.mp hmem with he | hmem2
      · exact hab he
      · rcases List.mem_cons.mp hmem2 with he | h0
        · exact hg1 he.symm
        · cases h0
    · intro hmem
      rcases List.mem_cons.mp hmem with he | h0
      · exact hg2 he.symm
      · cases h0
  · obtain ⟨it0, _, rfl, _, _⟩ := strategy5_spec h
    simp

unseal Rat.add Rat.mul Rat.inv Rat.sub Rat.ofScientific in
/-- C2 (counterexample): with the same chicken dish offered by two dining
halls, the double-protein strategy returns a combination whose two protein
members share the name, so the claim fails for menus with repeated
names. -/
theorem find_combinations_duplicate_name_combo :
    ¬ ∀ c ∈ find_combinations [chickenWest, chickenNorth, broccoliSide] 40 500 none,
        (c.1.map Item.name).Nodup := by
  decide

unseal Rat.add Rat.mul Rat.inv Rat.sub Rat.ofScientific in
/-- Witness for the amended C2 on a menu with pairwise distinct names. -/
theorem find_combinations_nodup_names_witness :
    ((([annotate grilledChicken], (35 : ℚ), (200 : ℚ)) : Combo).1.map
      Item.name).Nodup :=
  find_combinations_nodup_names [grilledChicken, steamedBroccoli] 30 300 none
    (by decide) ([annotate grilledChicken], 35, 200) (by decide)

/-- C3 (amended): strategy 4 generates exactly the combinations built from
a first protein index below 10, a second protein index strictly between it
and 15, and a vegetable index below 10, subject to the veggie-name guard
and the feasibility check; the first index is capped at 10, not 15. -/
theorem strategy4_enumeration (tps tvs : List Item) (pg cl : ℚ) (c : Combo) :
    c ∈ strategy4 tps tvs pg cl ↔
      ∃ (i j k : Nat) (hi : i < tps.length) (hj : j < tps.length)
        (hk : k < tvs.length),
        i < 10 ∧ i < j ∧ j < 15 ∧ k < 10 ∧
        (tvs.get ⟨k, hk⟩).name ≠ (tps.get ⟨i, hi⟩).name ∧
        (tvs.get ⟨k, hk⟩).name ≠ (tps.get ⟨j, hj⟩).name ∧
        pg ≤ sumProtein [tps.get ⟨i, hi⟩, tps.get ⟨j, hj⟩, tvs.get ⟨k, hk⟩] ∧
        sumCalories [tps.get ⟨i, hi⟩, tps.get ⟨j, hj⟩, tvs.get ⟨k, hk⟩] ≤ cl ∧
        c = ([tps.get ⟨i, hi⟩, tps.get ⟨j, hj⟩, tvs.get ⟨k, hk⟩],
             sumProtein [tps.get ⟨i, hi⟩, tps.get ⟨j, hj⟩, tvs.get ⟨k, hk⟩],
             sumCalories [tps.get ⟨i, hi⟩, tps.get ⟨j, hj⟩, tvs.get ⟨k, hk⟩]) := by
  constructor
  · intro h
    unfold strategy4 at h
    rw [List.mem_flatMap] at h
    obtain ⟨i, hir, h⟩ := h
    rw [List.mem_range, lt_min_iff] at hir
    rw [List.mem_flatMap] at h
    obtain ⟨p2, hp2, h⟩ := h
    rw [List.mem_filterMap] at h
    obtain ⟨v, hv, hsome⟩ := h
    rw [List.getD_eq_getElem tps default hir.2] at hsome
    rw [List.mem_iff_getElem] at hp2 hv
    obtain ⟨m, hm, hp2e⟩ := hp2
    obtain ⟨k, hk, hve⟩ := hv
    rw [List.length_drop, List.length_take] at hm
    rw [List.length_take] at hk
    have hj : i + 1 + m < tps.length := by omega
    have hkl : k < tvs.length := by omega
    have hp2t : p2 = tps[i + 1 + m] := by
      rw [← hp2e, List.getElem_drop, List.getElem_take]
    have hvt : v = tvs[k] := by
      rw [← hve, List.getElem_take]
    subst hp2t hvt
    refine ⟨i, i + 1 + m, k, hir.2, hj, hkl, hir.1, by omega, by omega, by omega,
      ?_⟩
    split at hsome
    · cases hsome
    · next hname =>
      dsimp only at hsome
      split at hsome
      · next hfeas =>
        rw [Bool.or_eq_true] at hname
        push_neg at hname
        have hn1 : tvs[k].name ≠ tps[i].name := by
          intro he
          exact hname.1 (by rw [he]; exact beq_self_eq_true _)
        have hn2 : tvs[k].name ≠ tps[i + 1 + m].name := by
          intro he
          exact hname.2 (by rw [he]; exact beq_self_eq_true _)
        exact ⟨hn1, hn2, hfeas.1, hfeas.2, (Option.some_inj.mp hsome).symm⟩
      · cases hsome
  · rintro ⟨i, j, k, hi, hj, hk, h10, hij, h15, hk10, hg1, hg2, hf1, hf2, rfl⟩
    unfold strategy4
    rw [List.mem_flatMap]
    refine ⟨i, by rw [List.mem_range]; exact lt_min h10 hi, ?_⟩
    rw [List.mem_flatMap]
    refine ⟨tps[j], ?_, ?_⟩
    · rw [List.mem_iff_getElem]
      refine ⟨j - (i + 1), ?_, ?_⟩
      · rw [List.length_drop, List.length_take]
        omega
      · rw [List.getElem_drop, List.getElem_take]
        congr 1
        omega
    · rw [List.mem_filterMap]
      refine ⟨tvs[k], ?_, ?_⟩
      · rw [List.mem_iff_getElem]
        refine ⟨k, ?_, ?_⟩
        · rw [List.length_take]
          omega
        · rw [List.getElem_take]
      · rw [List.getD_eq_getElem tps default hi]
        have hng : (tvs[k].name == tps[i].name || tvs[k].name == tps[j].name) = false := by
          rw [Bool.or_eq_false_iff, beq_eq_false_iff_ne, beq_eq_false_iff_ne]
          exact ⟨hg1, hg2⟩
        rw [hng]
        simp only [Bool.false_eq_true, if_false]
        rw [if_pos (show pg ≤ sumProtein [tps[i], tps[j], tvs[k]] ∧
            sumCalories [tps[i], tps[j], tvs[k]] ≤ cl from ⟨hf1, hf2⟩)]
        rfl

unseal Rat.add Rat.mul Rat.inv Rat.sub Rat.ofScientific in
/-- C3 (counterexample): with a 12-item protein pool, the pair of pool
indices (10, 11) is feasible, name-distinct and within the claimed top-15
range, yet strategy 4 never generates a candidate containing both items,
because the first index is capped at 10 in the code. -/
theorem strategy4_missing_pair :
    poolTwelve.length = 12 ∧
    (40 : ℚ) ≤ sumProtein [poolProtein 10, poolProtein 11, poolVeg] ∧
    sumCalories [poolProtein 10, poolProtein 11, poolVeg] ≤ 500 ∧
    poolVeg.name ≠ (poolProtein 10).name ∧ poolVeg.name ≠ (poolProtein 11).name ∧
    poolTwelve.get ⟨10, by decide⟩ = poolProtein 10 ∧
    poolTwelve.get ⟨11, by decide⟩ = poolProtein 11 ∧
    ∀ c ∈ strategy4 poolTwelve [poolVeg] 40 500,
      ¬(poolProtein 10 ∈ c.1 ∧ poolProtein 11 ∈ c.1) := by
  decide

unseal Rat.add Rat.mul Rat.inv Rat.sub Rat.ofScientific in
/-- Witness for the amended C3: the pair of pool indices (0, 11) with the
vegetable is generated by strategy 4 on the same pools. -/
theorem strategy4_enumeration_witness :
    ([poolTwelve.get ⟨0, by decide⟩, poolTwelve.get ⟨11, by decide⟩, poolVeg],
      sumProtein [poolTwelve.get ⟨0, by decide⟩, poolTwelve.get ⟨11, by decide⟩, poolVeg],
      sumCalories [poolTwelve.get ⟨0, by decide⟩, poolTwelve.get ⟨11, by decide⟩, poolVeg]) ∈
      strategy4 poolTwelve [poolVeg] 40 500 :=
  (strategy4_enumeration poolTwelve [poolVeg] 40 500 _).mpr
    ⟨0, 11, 0, by decide, by decide, by decide, by decide, by decide, by decide,
      by decide, by decide, by decide, by decide, by decide, rfl⟩



/-! Deduplication-key facts for claim C6. -/

lemma find?_eq_of_nodup_keys {l : List Combo} (h : (l.map comboKey).Nodup)
    {d : Combo} (hd : d ∈ l) :
    l.find? (fun e => comboKey e == comboKey d) = some d := by
  induction l with
  | nil => cases hd
  | cons e rest ih =>
    rw [List.map_cons, List.nodup_cons] at h
    rcases List.mem_cons.mp hd with rfl | hd2
    · exact List.find?_cons_of_pos _ (beq_self_eq_true _)
    · have hne : comboKey e ≠ comboKey d := by
        intro he
        exact h.1 (he ▸ List.mem_map_of_mem comboKey hd2)
      rw [List.find?_cons_of_neg _ (by simp [hne])]
      exact ih h.2 hd2

/-- C6: a combination's dedup identity is the sorted tuple of member
names — equal keys mean equal name multisets — and for every generated
candidate exactly one combination with its key survives into the ranked
sequence, namely the first candidate with that key in generation order. -/
theorem dedup_by_sorted_names (menu : List Item) (pg cl : ℚ)
    (filt : Option String) :
    (∀ c d : Combo, comboKey c = comboKey d ↔
      (c.1.map Item.name).Perm (d.1.map Item.name)) ∧
    ∀ c ∈ validCombos menu pg cl filt,
      (rankedCombos menu pg cl filt).countP
        (fun d => comboKey d == comboKey c) = 1 ∧
      ∀ d ∈ rankedCombos menu pg cl filt, comboKey d = comboKey c →
        (validCombos menu pg cl filt).find?
          (fun e => comboKey e == comboKey c) = some d := by
  constructor
  · intro c d
    constructor
    · intro h
      have h1 : (c.1.map Item.name).Perm (comboKey c) :=
        (List.perm_insertionSort nameOrder _).symm
      have h2 : (comboKey d).Perm (d.1.map Item.name) :=
        List.perm_insertionSort nameOrder _
      refine h1.trans ?_
      rw [h]
      exact h2
    · intro h
      exact @List.eq_of_perm_of_sorted _ nameOrder _ _ _
        ((List.perm_insertionSort nameOrder _).trans
          (h.trans (List.perm_insertionSort nameOrder _).symm))
        (List.sorted_insertionSort nameOrder _)
        (List.sorted_insertionSort nameOrder _)
  · intro c hc
    have hkmem : comboKey c ∈ (validCombos menu pg cl filt).map comboKey :=
      List.mem_map_of_mem comboKey hc
    constructor
    · unfold rankedCombos
      rw [(List.perm_insertionSort comboOrder _).countP_eq]
      unfold uniqueCombos
      rw [countP_dedupCombos _ [] _ (by simp)]
      rw [if_pos hkmem]
    · intro d hd hkey
      unfold rankedCombos at hd
      rw [(List.perm_insertionSort comboOrder _).mem_iff] at hd
      unfold uniqueCombos at hd
      rw [← find?_dedupCombos (validCombos menu pg cl filt) [] (comboKey c) (by simp)]
      rw [← hkey]
      exact find?_eq_of_nodup_keys (dedup_keys_nodup _ _) hd

unseal Rat.add Rat.mul Rat.inv Rat.sub Rat.ofScientific in
/-- Witness for C6 on the worked scenario. -/
theorem dedup_by_sorted_names_witness :
    (rankedCombos [grilledChicken, steamedBroccoli] 30 300 none).countP
      (fun d => comboKey d == comboKey ([annotate grilledChicken], 35, 200)) = 1 :=
  ((dedup_by_sorted_names [grilledChicken, steamedBroccoli] 30 300 none).2
    ([annotate grilledChicken], 35, 200) (by decide)).1

/-- C7: `categorize_food` tests the lowercased name against the keyword
lists in priority order protein, vegetable, fruit, carb, then falls back
to the nutrition rules protein ≥ 15, carbs ≥ 25 with protein < 8,
calories < 50 with carbs < 15, and finally other; every item gets one of
the five categories and a "Chicken Salad" item is always protein. -/
theorem categorize_food_priority :
    (∀ it : Item,
      categorize_food it ∈ ["protein", "vegetable", "fruit", "carb", "other"]) ∧
    (∀ cal p f cb sod eff : ℚ, ∀ serv hall cat : String,
      categorize_food ⟨"Chicken Salad", cal, p, f, cb, sod, serv, hall, cat, eff⟩ =
        "protein") ∧
    (∀ it : Item, hasKeyword (lowerStr it.name) protein_keywords = true →
      categorize_food it = "protein") ∧
    (∀ it : Item, hasKeyword (lowerStr it.name) protein_keywords = false →
      hasKeyword (lowerStr it.name) vegetable_keywords = true →
      categorize_food it = "vegetable") ∧
    (∀ it : Item, hasKeyword (lowerStr it.name) protein_keywords = false →
      hasKeyword (lowerStr it.name) vegetable_keywords = false →
      hasKeyword (lowerStr it.name) fruit_keywords = true →
      categorize_food it = "fruit") ∧
    (∀ it : Item, hasKeyword (lowerStr it.name) protein_keywords = false →
      hasKeyword (lowerStr it.name) vegetable_keywords = false →
      hasKeyword (lowerStr it.name) fruit_keywords = false →
      hasKeyword (lowerStr it.name) carb_keywords = true →
      categorize_food it = "carb") ∧
    (∀ it : Item, hasKeyword (lowerStr it.name) protein_keywords = false →
      hasKeyword (lowerStr it.name) vegetable_keywords = false →
      hasKeyword (lowerStr it.name) fruit_keywords = false →
      hasKeyword (lowerStr it.name) carb_keywords = false →
      15 ≤ it.protein → categorize_food it = "protein") ∧
    (∀ it : Item, hasKeyword (lowerStr it.name) protein_keywords = false →
      hasKeyword (lowerStr it.name) vegetable_keywords = false →
      hasKeyword (lowerStr it.name) fruit_keywords = false →
      hasKeyword (lowerStr it.name) carb_keywords = false →
      ¬ 15 ≤ it.protein → 25 ≤ it.carbs ∧ it.protein < 8 →
      categorize_food it = "carb") ∧
    (∀ it : Item, hasKeyword (lowerStr it.name) protein_keywords = false →
      hasKeyword (lowerStr it.name) vegetable_keywords = false →
      hasKeyword (lowerStr it.name) fruit_keywords = false →
      hasKeyword (lowerStr it.name) carb_keywords = false →
      ¬ 15 ≤ it.protein → ¬(25 ≤ it.carbs ∧ it.protein < 8) →
      it.calories < 50 ∧ it.carbs < 15 →
      categorize_food it = "vegetable") ∧
    (∀ it : Item, hasKeyword (lowerStr it.name) protein_keywords = false →
      hasKeyword (lowerStr it.name) vegetable_keywords = false →
      hasKeyword (lowerStr it.name) fruit_keywords = false →
      hasKeyword (lowerStr it.name) carb_keywords = false →
      ¬ 15 ≤ it.protein → ¬(25 ≤ it.carbs ∧ it.protein < 8) →
      ¬(it.calories < 50 ∧ it.carbs < 15) →
      categorize_food it = "other") := by
  refine ⟨?_, ?_, ?_, ?_, ?_, ?_, ?_, ?_, ?_, ?_⟩
  · intro it
    unfold categorize_food
    by_cases h1 : hasKeyword (lowerStr it.name) protein_keywords = true
    · simp [h1]
    · by_cases h2 : hasKeyword (lowerStr it.name) vegetable_keywords = true
      · simp [h1, h2]
      · by_cases h3 : hasKeyword (lowerStr it.name) fruit_keywords = true
        · simp [h1, h2, h3]
        · by_cases h4 : hasKeyword (lowerStr it.name) carb_keywords = true
          · simp [h1, h2, h3, h4]
          · rw [if_neg h1, if_neg h2, if_neg h3, if_neg h4]
            split_ifs <;> simp
  · intro cal p f cb sod eff serv hall cat
    rfl
  · intro it h1
    simp [categorize_food, h1]
  · intro it h1 h2
    simp [categorize_food, h1, h2]
  · intro it h1 h2 h3
    simp [categorize_food, h1, h2, h3]
  · intro it h1 h2 h3 h4
    simp [categorize_food, h1, h2, h3, h4]
  · intro it h1 h2 h3 h4 h5
    simp [categorize_food, h1, h2, h3, h4, h5]
  · intro it h1 h2 h3 h4 h5 h6
    simp [categorize_food, h1, h2, h3, h4, h5, h6]
  · intro it h1 h2 h3 h4 h5 h6 h7
    simp [categorize_food, h1, h2, h3, h4, h5, h6, h7]
  · intro it h1 h2 h3 h4 h5 h6 h7
    simp [categorize_food, h1, h2, h3, h4, h5, h6, h7]

/-- Witness for C7: the nutrition fallback classifies an unnamed-category
high-protein item as protein. -/
theorem categorize_food_priority_witness :
    categorize_food (mkItem "Mystery Bowl" 100 20 0 0 "West Village") = "protein" :=
  categorize_food_priority.2.2.2.2.2.2.1
    (mkItem "Mystery Bowl" 100 20 0 0 "West Village")
    (by decide) (by decide) (by decide) (by decide) (by norm_num [mkItem])

/-! Stability of the search under the in-place annotation of a previous
call, for claim C9. -/

lemma annotate_annotate (it : Item) : annotate (annotate it) = annotate it := rfl

lemma annotate_postMutate (cl : ℚ) (filt : Option String) (it : Item) :
    annotate (postMutate cl filt it) = annotate it := by
  unfold postMutate
  split
  · exact annotate_annotate it
  · rfl

lemma validItems_map_postMutate (menu : List Item) (cl : ℚ) (filt : Option String) :
    validItems (menu.map (postMutate cl filt)) cl filt =
      (validItems menu cl filt).map (postMutate cl filt) := by
  unfold validItems
  cases filt with
  | none =>
    dsimp only
    rw [List.filter_map]
    congr 1
    apply List.filter_congr
    intro it _
    simp only [Function.comp_apply]
    unfold postMutate
    split <;> rfl
  | some hall =>
    dsimp only
    have e1 : List.filter (fun it => decide (0 < it.calories) && decide (it.calories < cl))
        (List.map (postMutate cl (some hall)) menu) =
        List.map (postMutate cl (some hall))
          (List.filter (fun it => decide (0 < it.calories) && decide (it.calories < cl))
            menu) := by
      rw [List.filter_map]
      congr 1
      apply List.filter_congr
      intro it _
      simp only [Function.comp_apply]
      unfold postMutate
      split <;> rfl
    rw [e1, List.filter_map]
    congr 1
    apply List.filter_congr
    intro it _
    simp only [Function.comp_apply]
    unfold postMutate
    split <;> rfl

lemma annotatedItems_map_postMutate (menu : List Item) (cl : ℚ)
    (filt : Option String) :
    annotatedItems (menu.map (postMutate cl filt)) cl filt =
      annotatedItems menu cl filt := by
  unfold annotatedItems
  rw [validItems_map_postMutate, List.map_map]
  apply List.map_congr_left
  intro it _
  simp only [Function.comp_apply]
  exact annotate_postMutate cl filt it

/-- C9: `find_combinations` is deterministic and insensitive to the
annotations a previous call left on the caller-owned records: running the
search on a menu whose filtered items already carry the category and
efficiency fields of a first call returns exactly the first call's
output. -/
theorem find_combinations_stable_under_annotation (menu : List Item)
    (pg cl : ℚ) (filt : Option String) :
    find_combinations (menu.map (postMutate cl filt)) pg cl filt =
      find_combinations menu pg cl filt := by
  unfold find_combinations rankedCombos uniqueCombos validCombos
  rw [annotatedItems_map_postMutate]


/-! Score bounds for claim C10. -/

lemma balance_tiers_bounds (x y z : ℚ) :
    0 ≤ (if 0.25 ≤ x ∧ x ≤ 0.35 then (10 : ℚ)
         else if 0.20 ≤ x ∧ x ≤ 0.40 then 5 else 0) +
        ((if 0.40 ≤ y ∧ y ≤ 0.55 then (10 : ℚ)
          else if 0.30 ≤ y ∧ y ≤ 0.65 then 5 else 0)) +
        ((if 0.20 ≤ z ∧ z ≤ 0.30 then (5 : ℚ)
          else if 0.15 ≤ z ∧ z ≤ 0.40 then 2 else 0)) ∧
    (if 0.25 ≤ x ∧ x ≤ 0.35 then (10 : ℚ)
     else if 0.20 ≤ x ∧ x ≤ 0.40 then 5 else 0) +
        ((if 0.40 ≤ y ∧ y ≤ 0.55 then (10 : ℚ)
          else if 0.30 ≤ y ∧ y ≤ 0.65 then 5 else 0)) +
        ((if 0.20 ≤ z ∧ z ≤ 0.30 then (5 : ℚ)
          else if 0.15 ≤ z ∧ z ≤ 0.40 then 2 else 0)) ≤ 25 := by
  split_ifs <;> norm_num

/-- C10: for items with non-negative nutrition fields and positive goals,
`calculate_meal_score` returns a score between 0 and 100 on feasible
meals (sub-score caps 40 + 20 + 25 + 15) and exactly (0, none) on
infeasible ones. -/
theorem calculate_meal_score_bounds (items : List Item) (pg cl : ℚ)
    (hpos : ∀ it ∈ items,
      0 ≤ it.protein ∧ 0 ≤ it.fat ∧ 0 ≤ it.carbs ∧ 0 ≤ it.calories)
    (_hpg : 0 < pg) (_hcl : 0 < cl) :
    (pg ≤ sumProtein items ∧ sumCalories items ≤ cl →
      0 ≤ (calculate_meal_score items pg cl).1 ∧
        (calculate_meal_score items pg cl).1 ≤ 100) ∧
    (sumProtein items < pg ∨ cl < sumCalories items →
      calculate_meal_score items pg cl = (0, none)) := by
  have h0P : 0 ≤ sumProtein items := by
    apply List.sum_nonneg
    intro x hx
    rw [List.mem_map] at hx
    obtain ⟨it, hit, rfl⟩ := hx
    exact (hpos it hit).1
  have h0C : 0 ≤ sumCalories items := by
    apply List.sum_nonneg
    intro x hx
    rw [List.mem_map] at hx
    obtain ⟨it, hit, rfl⟩ := hx
    exact (hpos it hit).2.2.2
  constructor
  · intro hfeas
    have hnot : ¬(sumProtein items < pg ∨ cl < sumCalories items) := by
      push_neg
      exact ⟨hfeas.1, hfeas.2⟩
    have hden : (0 : ℚ) < max (sumCalories items) 1 :=
      lt_of_lt_of_le one_pos (le_max_right _ _)
    have hdcl : (0 : ℚ) < max cl 1 := lt_of_lt_of_le one_pos (le_max_right _ _)
    have u0 : 0 ≤ sumCalories items / max cl 1 := div_nonneg h0C (le_of_lt hdcl)
    have u1 : sumCalories items / max cl 1 ≤ 1 := by
      rw [div_le_one hdcl]
      exact le_trans hfeas.2 (le_max_left _ _)
    have hmin : (0 : ℚ) ≤
        min (((items.map categorize_food).dedup.length : ℚ)) 3 :=
      le_min (Nat.cast_nonneg _) (by norm_num)
    unfold calculate_meal_score
    rw [if_neg hnot]
    dsimp only
    constructor
    · refine add_nonneg (add_nonneg (add_nonneg ?_ ?_) ?_) ?_
      · exact le_min (mul_nonneg (div_nonneg h0P (le_of_lt hden)) (by norm_num))
          (by norm_num)
      · refine add_nonneg (le_max_left _ _) ?_
        rw [if_pos u1]
        linarith
      · rw [apply_ite Prod.fst]
        split
        · dsimp only
          exact (balance_tiers_bounds _ _ _).1
        · norm_num
      · refine le_min ?_ (by norm_num)
        split_ifs <;> linarith [hmin]
    · refine le_trans (add_le_add (add_le_add (add_le_add ?_ ?_) ?_) ?_)
        (show (40 : ℚ) + 20 + 25 + 15 ≤ 100 by norm_num)
      · exact min_le_right _ _
      · refine le_trans (add_le_add ?_ ?_) (show (10 : ℚ) + 10 ≤ 20 by norm_num)
        · apply max_le (by norm_num)
          have hw : 0 ≤ (sumProtein items - pg) * 0.3 :=
            mul_nonneg (by linarith [hfeas.1]) (by norm_num)
          linarith
        · rw [if_pos u1]
          linarith
      · rw [apply_ite Prod.fst]
        split
        · dsimp only
          exact (balance_tiers_bounds _ _ _).2
        · norm_num
      · exact min_le_right _ _
  · intro h
    unfold calculate_meal_score
    rw [if_pos h]


unseal Rat.add Rat.mul Rat.inv Rat.sub Rat.ofScientific in
/-- Witness for C10 on the worked scenario's feasible two-item meal. -/
theorem calculate_meal_score_bounds_witness :
    0 ≤ (calculate_meal_score [annotate grilledChicken, annotate steamedBroccoli]
        30 300).1 ∧
    (calculate_meal_score [annotate grilledChicken, annotate steamedBroccoli]
        30 300).1 ≤ 100 :=
  (calculate_meal_score_bounds
    [annotate grilledChicken, annotate steamedBroccoli] 30 300
    (by decide) (by norm_num) (by norm_num)).1 (by decide)

end DiningOptimizer
